import Mathlib

/-!
Shallow embedding of the `dataset_processing_backend` repository:
a small HTTP service (FastAPI) that uploads CSV files as pandas
DataFrames, persists them (pickle content files plus a JSON metadata
index), and derives artifacts (Excel export, stats, histogram PDF).

Embedded modules:
* `src/utils/helpers.py`          — `allowed_file`
* `src/services/dataset.py`      — `Dataset`, `DatasetManager`
* `src/routes/dataset_routes.py` — the HTTP route handlers

Modelling conventions:
* pandas DataFrames become `Table`: named, typed columns with rows of
  cell values; floats are carried as an opaque payload (`Val.vFloat`)
  since no claim depends on float arithmetic.
* the filesystem is explicit state: an association list from path to
  file content for data files, and a three-state value
  (missing / corrupt / valid) for the JSON metadata document.
* `pickle.dump` / `pickle.load` are modelled as storing the `Table`
  value itself in the file map (pickling is a faithful, exact
  serialization of the in-memory object).
* `uuid.uuid4()` is modelled by an injective fresh-id supply (a
  counter in the manager state); `datetime.utcnow()` by a clock value
  in the same state.
* Python exceptions are modelled with `Except PyExc`; FastAPI's
  `HTTPException` is `PyExc.http status detail` and — crucially — is a
  subclass of `Exception`, so a Python `except Exception` catches it.
-/

/-- pandas dtype of a column, restricted to the kinds the routes
distinguish (`select_dtypes(include=["int64", "float64"])`). -/
inductive Dtype where
  | int64
  | float64
  | object
deriving DecidableEq, Repr

/-- A cell value. Float payloads are opaque bits: no claim computes
with them, and pickle round-trips them exactly. -/
inductive Val where
  | vInt (n : Int)
  | vFloat (bits : Nat)
  | vStr (s : String)
  | vNone
deriving DecidableEq, Repr

/-- One DataFrame column: its name, dtype and cells in row order. -/
structure Column where
  name : String
  dtype : Dtype
  cells : List Val
deriving DecidableEq, Repr

/-- A pandas DataFrame: columns in order; row order is the shared
order of each column's `cells`. -/
structure Table where
  cols : List Column
deriving DecidableEq, Repr

/-- Embeds `df.select_dtypes(include=["int64","float64"]).columns.tolist()`. -/
def Table.numericalCols (t : Table) : List String :=
  (t.cols.filter (fun c => c.dtype = Dtype.int64 ∨ c.dtype = Dtype.float64)).map
    Column.name

/- ## src/utils/helpers.py -/

/-- Embeds `ALLOWED_EXTENSIONS = {'csv'}`. -/
def ALLOWED_EXTENSIONS : List String := ["csv"]

/-- Python `s.rsplit(sep, 1)`: split on the LAST occurrence of `sep`;
a list of one or two pieces (one when `sep` does not occur). -/
def rsplit1 (sep : Char) (cs : List Char) : List (List Char) :=
  if sep ∈ cs then
    [((cs.reverse.dropWhile (fun c => c ≠ sep)).drop 1).reverse,
     (cs.reverse.takeWhile (fun c => c ≠ sep)).reverse]
  else [cs]

/-- Embeds `allowed_file(filename)` from `src/utils/helpers.py`:
`'.' in filename and filename.rsplit('.', 1)[1].lower() in ALLOWED_EXTENSIONS`.
The `[1]` index is only reached when `'.'` occurs (Python `and`
short-circuits), in which case `rsplit1` returns two pieces. -/
def allowed_file (filename : String) : Bool :=
  filename.data.contains '.' &&
    ALLOWED_EXTENSIONS.contains
      (String.mk (((rsplit1 '.' filename.data).getD 1 []).map Char.toLower))

/- ## Filesystem model -/

/-- The data directory: path → pickled table. Writes prepend, reads
take the first match, removals drop every entry at the path. -/
def FS := List (String × Table)

def fsRead (fs : FS) (p : String) : Option Table :=
  (List.lookup p fs)

def fsWrite (fs : FS) (p : String) (t : Table) : FS :=
  (p, t) :: fs

def fsRemove (fs : FS) (p : String) : FS :=
  List.filter (fun q => q.1 ≠ p) fs

/-- Embeds `os.path.exists` for the data directory. -/
def fsExists (fs : FS) (p : String) : Bool :=
  (fsRead fs p).isSome

/- ## src/services/dataset.py : Dataset -/

/-- Embeds the record class: `Dataset.__init__` leaves `filename`, `file_size` and `data_path`
at `None` when not given, so those fields are `Option`; `id` and
`upload_date` are always filled (from `uuid4()` / `utcnow()` when the
argument is `None`), so they are plain values. Timestamps are opaque
clock readings (`Nat`); `isoformat` / `fromisoformat` round-trip them
exactly and are modelled as the identity encoding. -/
structure Dataset where
  id : Nat
  filename : Option String
  file_size : Option Nat
  upload_date : Nat
  data_path : Option String
deriving DecidableEq, Repr

/-- The JSON form of a record, as written by `Dataset.to_dict`; every
field is optional because `Dataset.from_dict` uses `.get`. -/
structure DictRec where
  id : Option Nat
  filename : Option String
  file_size : Option Nat
  upload_date : Option Nat
  data_path : Option String
deriving DecidableEq, Repr

/-- Embeds `Dataset.to_dict`. -/
def Dataset.to_dict (d : Dataset) : DictRec :=
  { id := some d.id
    filename := d.filename
    file_size := d.file_size
    upload_date := some d.upload_date
    data_path := d.data_path }

/-- Embeds `Dataset.from_dict`. The Python classmethod falls back to
`uuid4()` / `utcnow()` inside `Dataset.__init__` when `id` /
`upload_date` are absent from the dict; those ambient defaults are
passed explicitly as `freshId` / `now` (they are unused on any dict
produced by `to_dict`). -/
def Dataset.from_dict (data : DictRec) (freshId : Nat) (now : Nat) : Dataset :=
  { id := data.id.getD freshId
    filename := data.filename
    file_size := data.file_size
    upload_date := data.upload_date.getD now
    data_path := data.data_path }

/-- Python exceptions: FastAPI `HTTPException(status, detail)` and any
other exception. `HTTPException` subclasses `Exception`, so a Python
`except Exception` catches both constructors. -/
inductive PyExc where
  | http (status : Nat) (detail : String)
  | other (msg : String)
deriving DecidableEq, Repr

/-- Embeds `Dataset.get_dataframe`: `pickle.load(open(self.data_path, 'rb'))`
with every failure re-raised as a generic `Exception` ("Error while
reading dataframe"). `open(None)` and a missing file both fail. -/
def Dataset.get_dataframe (d : Dataset) (fs : FS) : Except PyExc Table :=
  match d.data_path with
  | none => Except.error (PyExc.other "Error while reading dataframe")
  | some p =>
      match fsRead fs p with
      | some t => Except.ok t
      | none => Except.error (PyExc.other "Error while reading dataframe")

/-- Embeds `Dataset.save_dataframe`: `pickle.dump(df, open(self.data_path, "wb"))`;
failures are logged and re-raised. With `data_path = None`,
`os.path.dirname(None)` raises. -/
def Dataset.save_dataframe (d : Dataset) (fs : FS) (df : Table) :
    Except PyExc FS :=
  match d.data_path with
  | none => Except.error (PyExc.other "Failed to save DataFrame")
  | some p => Except.ok (fsWrite fs p df)

/-- Embeds `Dataset.delete_files`: `if os.path.exists(self.data_path):
os.remove(self.data_path)`, with any exception logged and swallowed
(so a `None` path is a logged no-op). -/
def Dataset.delete_files (d : Dataset) (fs : FS) : FS :=
  match d.data_path with
  | none => fs
  | some p => if fsExists fs p then fsRemove fs p else fs

/- ## src/services/dataset.py : DatasetManager -/

/-- Severity of a log record emitted by `_load_metadata`. -/
inductive LogLevel where
  | warning
  | error
deriving DecidableEq, Repr

/-- State of the on-disk `datasets_metadata.json` document: absent,
present but not valid JSON, or a valid JSON object. The mapping is an
association list because a Python `dict` preserves insertion order. -/
inductive MetaFile where
  | missing
  | corrupt
  | valid (m : List (Nat × DictRec))
deriving DecidableEq, Repr

/-- Embeds `json.load` on the metadata file: raises `FileNotFoundError` when
the file is absent and `JSONDecodeError` when it does not parse. -/
inductive JsonErr where
  | decodeError
  | fileNotFound
deriving DecidableEq, Repr

def jsonLoad (mf : MetaFile) : Except JsonErr (List (Nat × DictRec)) :=
  match mf with
  | MetaFile.missing => Except.error JsonErr.fileNotFound
  | MetaFile.corrupt => Except.error JsonErr.decodeError
  | MetaFile.valid m => Except.ok m

/-- Everything the manager touches: data files, the metadata document,
the `uuid4()` supply and the `utcnow()` clock. -/
structure MgrState where
  fs : FS
  meta : MetaFile
  nextId : Nat
  now : Nat

/-- Python `dict` insert `m[k] = v`: updates in place if the key is
present, else appends (insertion order preserved). -/
def dictInsert (m : List (Nat × DictRec)) (k : Nat) (v : DictRec) :
    List (Nat × DictRec) :=
  if (List.lookup k m).isSome then
    m.map (fun p => if p.1 = k then (k, v) else p)
  else m ++ [(k, v)]

/-- Python `del m[k]`. -/
def dictErase (m : List (Nat × DictRec)) (k : Nat) : List (Nat × DictRec) :=
  m.filter (fun p => p.1 ≠ k)

/-- Embeds `DatasetManager._load_metadata`: `json.load`, catching
`JSONDecodeError` (logged as error, return `{}`) and `FileNotFoundError`
(logged as warning, return `{}`). The result is the mapping together
with the log record emitted, inside `Except` to record that no
exception escapes the handlers. -/
def loadMetadata (mf : MetaFile) :
    Except PyExc (List (Nat × DictRec) × Option LogLevel) :=
  match jsonLoad mf with
  | Except.ok m => Except.ok (m, none)
  | Except.error JsonErr.decodeError => Except.ok ([], some LogLevel.error)
  | Except.error JsonErr.fileNotFound => Except.ok ([], some LogLevel.warning)

/-- The mapping `_load_metadata` hands to its callers. -/
def loadMeta (mf : MetaFile) : List (Nat × DictRec) :=
  match loadMetadata mf with
  | Except.ok (m, _) => m
  | Except.error _ => []

/-- Embeds `str(self.data_dir / f"{dataset.id}.pkl")` with the default
`storage_dir="storage"`. -/
def dataPathOf (id : Nat) : String :=
  "storage/data/" ++ toString id ++ ".pkl"

/-- Embeds `DatasetManager.create_dataset`: fresh uuid, build the record, set
`data_path`, pickle the DataFrame, then read-modify-write the index.
`save_dataframe` cannot fail here because `data_path` was just set. -/
def createDataset (st : MgrState) (original_filename : String)
    (file_size : Nat) (df : Table) : Dataset × MgrState :=
  let id := st.nextId
  let ds : Dataset :=
    { id := id
      filename := some original_filename
      file_size := some file_size
      upload_date := st.now
      data_path := some (dataPathOf id) }
  let fs' := fsWrite st.fs (dataPathOf id) df
  let m := loadMeta st.meta
  let m' := dictInsert m id ds.to_dict
  (ds, { st with fs := fs', meta := MetaFile.valid m', nextId := st.nextId + 1 })

/-- Embeds `DatasetManager.get_dataset`: load the index, return `None` when
the id is absent, else `Dataset.from_dict` of the stored dict (the
constructor's ambient defaults come from the state and are unused on
stored dicts, which always carry `id` and `upload_date`). -/
def getDataset (st : MgrState) (dataset_id : Nat) : Option Dataset :=
  match List.lookup dataset_id (loadMeta st.meta) with
  | none => none
  | some d => some (Dataset.from_dict d st.nextId st.now)

/-- Embeds `DatasetManager.list_datasets`: reconstruct every record in index
order. -/
def listDatasets (st : MgrState) : List Dataset :=
  (loadMeta st.meta).map (fun p => Dataset.from_dict p.2 st.nextId st.now)

/-- Embeds `DatasetManager.delete_dataset`: `False` for an unknown id, else
best-effort content removal, then delete the index entry and persist. -/
def deleteDataset (st : MgrState) (dataset_id : Nat) : Bool × MgrState :=
  match getDataset st dataset_id with
  | none => (false, st)
  | some ds =>
      let fs' := ds.delete_files st.fs
      let m := loadMeta st.meta
      if (List.lookup dataset_id m).isSome then
        (true, { st with fs := fs',
                         meta := MetaFile.valid (dictErase m dataset_id) })
      else (true, { st with fs := fs' })

/- ## src/routes/dataset_routes.py -/

/-- An uploaded request body: its byte length and what
`pd.read_csv(io.StringIO(content.decode('utf-8')))` makes of it
(`none` = parse/decode failure). -/
structure CsvBytes where
  size : Nat
  parsed : Option Table

/-- Outcome of a route handler: the HTTP status plus, for `Response`
endpoints, the body model. `HTTPException`s raised by FastAPI carry
their status. -/
structure RouteResult (α : Type) where
  status : Nat
  body : Option α
deriving Repr

/-- The blanket `except Exception as e: raise HTTPException(500, ...)`
wrapper every handler of `dataset_routes.py` ends with (except
`get_stats`). An `HTTPException` raised inside the `try` body IS an
`Exception`, so it is caught and replaced by a 500. -/
def catchAll500 (α : Type) (r : Except PyExc (Nat × α)) : RouteResult α :=
  match r with
  | Except.ok (s, a) => { status := s, body := some a }
  | Except.error _ => { status := 500, body := none }

/-- Embeds `POST /datasets/` (`create_dataset` route). Body of the `try`:
missing filename → 400; `allowed_file` fails → 400; CSV parse fails
→ 400; otherwise create and answer 201. All raised `HTTPException`s
are then swallowed by the blanket handler. -/
def createRoute (st : MgrState) (filename : String) (content : CsvBytes) :
    RouteResult (Dataset × MgrState) :=
  catchAll500 _ (do
    if filename = "" then
      throw (PyExc.http 400 "No file uploaded")
    if ¬ allowed_file filename then
      throw (PyExc.http 400 "Only CSV files are accepted")
    match content.parsed with
    | none => throw (PyExc.http 400 "Invalid CSV file")
    | some df =>
        let r := createDataset st filename content.size df
        pure (201, r))

/-- Embeds `GET /datasets/{id}/` (`get_dataset` route): 404 raised for an
unknown id, then swallowed by the blanket handler. -/
def getRoute (st : MgrState) (dataset_id : Nat) : RouteResult Dataset :=
  catchAll500 _ (do
    match getDataset st dataset_id with
    | none => throw (PyExc.http 404 "Dataset not found")
    | some ds => pure (200, ds))

/-- Embeds `DELETE /datasets/{id}/` (`delete_dataset` route). The handler
calls `print(dataset.to_dict())` BEFORE the `None` check, so an
unknown id raises `AttributeError` on `None` first; the 404 branch is
unreachable. -/
def deleteRoute (st : MgrState) (dataset_id : Nat) :
    RouteResult MgrState :=
  catchAll500 _ (do
    let ds ← match getDataset st dataset_id with
      | none => throw (PyExc.other
          "AttributeError: NoneType object has no attribute to_dict")
      | some ds => pure ds
    let _ := ds.to_dict
    let (success, st') := deleteDataset st dataset_id
    if ¬ success then
      throw (PyExc.http 500 "Error deleting dataset")
    pure (200, st'))

/-- Python `re.sub(r"[^\w\-_. ]", "_", s)` character class: `\w` is a
word character (letter, digit or underscore). -/
def pyIsWordChar (c : Char) : Bool :=
  c.isAlpha || c.isDigit || c = '_'

/-- One character of the sanitizer: kept if it matches `[\w\-_. ]`,
else replaced by `'_'`. -/
def sanitizeChar (c : Char) : Char :=
  if pyIsWordChar c || c = '-' || c = '_' || c = '.' || c = ' ' then c
  else '_'

/-- Embeds `re.sub(r"[^\w\-_. ]", "_", dataset.filename.rsplit(".", 1)[0]) + ".xlsx"`
from the `export_excel` route. -/
def excelFilename (filename : String) : String :=
  String.mk ((((rsplit1 '.' filename.data).getD 0 []).map sanitizeChar)) ++
    ".xlsx"

/-- Embeds `n_cols = min(3, len(numerical_cols))` in `generate_plot`. -/
def plotNCols (k : Nat) : Nat := min 3 k

/-- Embeds `n_rows = (len(numerical_cols) + n_cols - 1) // n_cols`. -/
def plotNRows (k : Nat) : Nat := (k + plotNCols k - 1) / plotNCols k

/-- The flattened grid of axes after `generate_plot`'s two loops:
`plt.subplots(n_rows, n_cols)` makes `n_rows * n_cols` axes, all
visible; the first loop draws one histogram per numeric column on
cells `0..k-1`; the second loop calls `set_visible(False)` on every
cell with index `≥ k`. A cell is `true` iff it is visible. -/
def plotGrid (k : Nat) : List Bool :=
  (List.replicate (plotNRows k * plotNCols k) true).mapIdx
    (fun j v => if k ≤ j then false else v)

/-- The PDF body produced by `generate_plot`: the grid of panels of
its single figure. -/
structure PdfDoc where
  cells : List Bool
deriving DecidableEq, Repr

/-- Number of rendered (visible) panels of the PDF. -/
def PdfDoc.renderedPanels (p : PdfDoc) : Nat :=
  (p.cells.filter (fun b => b)).length

/-- Embeds `GET /datasets/{id}/plot/` (`generate_plot` route): 404 for an
unknown id, 400 for zero numeric columns — both raised inside the
`try` and swallowed into 500 by the blanket handler; otherwise a PDF
with one histogram panel per numeric column. -/
def plotRoute (st : MgrState) (dataset_id : Nat) : RouteResult PdfDoc :=
  catchAll500 _ (do
    let ds ← match getDataset st dataset_id with
      | none => throw (PyExc.http 404 "Dataset not found")
      | some ds => pure ds
    let df ← ds.get_dataframe st.fs
    let numerical_cols := df.numericalCols
    if numerical_cols = [] then
      throw (PyExc.http 400 "No numeric columns found in dataset")
    pure (200, { cells := plotGrid numerical_cols.length }))

/- ## Helper lemmas -/

theorem lookup_filter_ne {α β : Type} [DecidableEq α] [BEq α] [LawfulBEq α]
    (m : List (α × β)) (k : α) :
    List.lookup k (m.filter (fun q => q.1 ≠ k)) = none := by
  induction m with
  | nil => rfl
  | cons p rest ih =>
      by_cases h : p.1 = k
      · simpa [List.filter_cons, h] using ih
      · have hbk : (k == p.1) = false := beq_eq_false_iff_ne.mpr (Ne.symm h)
        simpa [List.filter_cons, h, List.lookup, hbk] using ih

theorem lookup_eq_none_of_forall_ne {α β : Type} [BEq α] [LawfulBEq α]
    (m : List (α × β)) (k : α) (h : ∀ kv ∈ m, kv.1 ≠ k) :
    List.lookup k m = none := by
  induction m with
  | nil => rfl
  | cons p rest ih =>
      have hp : p.1 ≠ k := h p (List.mem_cons_self p rest)
      have hbk : (k == p.1) = false := beq_eq_false_iff_ne.mpr (Ne.symm hp)
      simp only [List.lookup, hbk]
      exact ih (fun kv hkv => h kv (List.mem_cons_of_mem p hkv))

theorem from_dict_to_dict (d : Dataset) (freshId now : Nat) :
    Dataset.from_dict d.to_dict freshId now = d := rfl

theorem fsRead_fsWrite (fs : FS) (p : String) (t : Table) :
    fsRead (fsWrite fs p t) p = some t := by
  simp [fsRead, fsWrite, List.lookup]

theorem fsExists_fsRemove (fs : FS) (p : String) :
    fsExists (fsRemove fs p) p = false := by
  simp only [fsExists, fsRead, fsRemove]
  rw [lookup_filter_ne]
  rfl

/- ## Claim theorems -/

/-- C4: saving a table at a path and loading it back from that path
returns exactly the table that was saved — same columns, same row
order, same cell values and dtypes (`Table` equality is all of these). -/
theorem save_then_load_roundtrip (ds : Dataset) (fs : FS) (df : Table)
    (p : String) (h : ds.data_path = some p) :
    ds.save_dataframe fs df = Except.ok (fsWrite fs p df) ∧
    ds.get_dataframe (fsWrite fs p df) = Except.ok df := by
  constructor
  · simp [Dataset.save_dataframe, h]
  · simp [Dataset.get_dataframe, h, fsRead_fsWrite]

/-- A small concrete table used by witnesses. -/
def sampleTable : Table :=
  { cols := [{ name := "a", dtype := Dtype.int64,
               cells := [Val.vInt 1, Val.vInt 2, Val.vInt 3] }] }

/-- A concrete record whose content file is `storage/data/0.pkl`. -/
def sampleDs : Dataset :=
  { id := 0, filename := some "a.csv", file_size := some 3,
    upload_date := 0, data_path := some "storage/data/0.pkl" }

theorem save_then_load_roundtrip_witness :
    sampleDs.save_dataframe [] sampleTable =
      Except.ok (fsWrite [] "storage/data/0.pkl" sampleTable) ∧
    sampleDs.get_dataframe (fsWrite [] "storage/data/0.pkl" sampleTable) =
      Except.ok sampleTable :=
  save_then_load_roundtrip sampleDs [] sampleTable "storage/data/0.pkl" rfl

/-- C6: `_load_metadata` never lets an exception escape — for every
state of the metadata document it returns `Except.ok`; a corrupt
document yields the empty mapping with an error-level log, a missing
document yields the empty mapping with a warning-level log. -/
theorem load_metadata_never_propagates :
    (∀ mf : MetaFile, ∃ r, loadMetadata mf = Except.ok r) ∧
    loadMetadata MetaFile.corrupt = Except.ok ([], some LogLevel.error) ∧
    loadMetadata MetaFile.missing = Except.ok ([], some LogLevel.warning) := by
  refine ⟨fun mf => ?_, rfl, rfl⟩
  cases mf <;> exact ⟨_, rfl⟩

/-- C5: when `delete_dataset(id)` returns `True`, a subsequent
`get_dataset(id)` returns `None`, and the deleted record's content
file is gone from the data directory. -/
theorem delete_then_get_absent (st : MgrState) (id : Nat)
    (h : (deleteDataset st id).1 = true) :
    getDataset (deleteDataset st id).2 id = none ∧
    ∀ ds p, getDataset st id = some ds → ds.data_path = some p →
      fsExists (deleteDataset st id).2.fs p = false := by
  cases hg : getDataset st id with
  | none => simp [deleteDataset, hg] at h
  | some ds =>
      have hl : List.lookup id (loadMeta st.meta) = some ds.to_dict ∨
          (List.lookup id (loadMeta st.meta)).isSome = true := by
        right
        unfold getDataset at hg
        cases hlk : List.lookup id (loadMeta st.meta) with
        | none => rw [hlk] at hg; exact absurd hg (by simp)
        | some d => simp [hlk]
      have hsome : (List.lookup id (loadMeta st.meta)).isSome = true := by
        rcases hl with h1 | h1
        · simp [h1]
        · exact h1
      constructor
      · simp only [deleteDataset, hg, hsome, if_pos]
        simp only [getDataset, loadMeta, loadMetadata, jsonLoad]
        rw [dictErase, lookup_filter_ne]
      · intro ds' p hds' hp
        have hds : ds' = ds := (Option.some.inj hds').symm
        subst hds
        simp only [deleteDataset, hg, hsome, if_pos]
        simp only [Dataset.delete_files, hp]
        by_cases he : fsExists st.fs p = true
        · simp [he, fsExists_fsRemove]
        · simp only [Bool.not_eq_true] at he
          simp [he]

/-- Concrete manager state backing the C5 witness: one dataset with
id 0 whose content file is on disk. -/
def sampleSt : MgrState :=
  { fs := [("storage/data/0.pkl", sampleTable)],
    meta := MetaFile.valid [(0, sampleDs.to_dict)],
    nextId := 1, now := 1 }

theorem delete_then_get_absent_witness :
    getDataset (deleteDataset sampleSt 0).2 0 = none ∧
    fsExists (deleteDataset sampleSt 0).2.fs "storage/data/0.pkl" = false :=
  ⟨(delete_then_get_absent sampleSt 0 rfl).1,
   (delete_then_get_absent sampleSt 0 rfl).2 sampleDs "storage/data/0.pkl"
     rfl rfl⟩

/- ## Iterated creation (for the listing claim) -/

/-- Runs `N` successive `create_dataset` calls: the returned records in
call order, and the final manager state. -/
def createN (st : MgrState) (inputs : List (String × Nat × Table)) :
    List Dataset × MgrState :=
  match inputs with
  | [] => ([], st)
  | (f, sz, df) :: rest =>
      let r := createDataset st f sz df
      let r2 := createN r.2 rest
      (r.1 :: r2.1, r2.2)

/-- Induction workhorse: starting from a valid index `m` whose keys
are all below the fresh-id counter, `createN` appends one entry per
call (every generated id is fresh, so `dictInsert` never overwrites),
and keeps all keys below the final counter. -/
theorem createN_meta (inputs : List (String × Nat × Table)) :
    ∀ (st : MgrState) (m : List (Nat × DictRec)),
      st.meta = MetaFile.valid m → (∀ kv ∈ m, kv.1 < st.nextId) →
      (createN st inputs).2.meta =
        MetaFile.valid
          (m ++ (createN st inputs).1.map (fun d => (d.id, d.to_dict))) ∧
      (∀ kv ∈ m ++ (createN st inputs).1.map (fun d => (d.id, d.to_dict)),
        kv.1 < (createN st inputs).2.nextId) ∧
      (createN st inputs).1.length = inputs.length := by
  induction inputs with
  | nil =>
      intro st m hmeta hb
      refine ⟨by simpa [createN] using hmeta, ?_, rfl⟩
      intro kv hkv
      exact hb kv (by simpa [createN] using hkv)
  | cons x rest ih =>
      obtain ⟨f, sz, df⟩ := x
      intro st m hmeta hb
      have hload : loadMeta st.meta = m := by
        simp [loadMeta, loadMetadata, jsonLoad, hmeta]
      have hnone : List.lookup st.nextId m = none :=
        lookup_eq_none_of_forall_ne m st.nextId
          (fun kv hkv => Nat.ne_of_lt (hb kv hkv))
      have hins : dictInsert m st.nextId
          (createDataset st f sz df).1.to_dict =
          m ++ [(st.nextId, (createDataset st f sz df).1.to_dict)] := by
        simp [dictInsert, hnone]
      have hmeta1 : (createDataset st f sz df).2.meta =
          MetaFile.valid
            (m ++ [(st.nextId, (createDataset st f sz df).1.to_dict)]) := by
        simp [createDataset, hload, dictInsert, hnone]
      have hb1 : ∀ kv ∈ m ++ [(st.nextId, (createDataset st f sz df).1.to_dict)],
          kv.1 < (createDataset st f sz df).2.nextId := by
        intro kv hkv
        rcases List.mem_append.mp hkv with hkv | hkv
        · exact Nat.lt_trans (hb kv hkv) (Nat.lt_succ_self _)
        · rcases List.mem_singleton.mp hkv with rfl
          exact Nat.lt_succ_self _
      obtain ⟨h1, h2, h3⟩ :=
        ih (createDataset st f sz df).2
          (m ++ [(st.nextId, (createDataset st f sz df).1.to_dict)]) hmeta1 hb1
      have hid : (createDataset st f sz df).1.id = st.nextId := rfl
      refine ⟨?_, ?_, ?_⟩
      · simpa [createN, hid, List.append_assoc] using h1
      · intro kv hkv
        apply h2
        simpa [createN, hid, List.append_assoc] using hkv
      · simpa [createN] using h3

/-- C7: starting from an empty index, after `N` creations and no
deletions `list_datasets` returns exactly the `N` records that the
`create_dataset` calls returned — same ids, filenames, sizes, upload
dates and data paths (record equality is field-wise). -/
theorem listing_completeness (st : MgrState)
    (inputs : List (String × Nat × Table))
    (h : st.meta = MetaFile.valid []) :
    listDatasets (createN st inputs).2 = (createN st inputs).1 ∧
    (listDatasets (createN st inputs).2).length = inputs.length ∧
    (createN st inputs).1.length = inputs.length := by
  obtain ⟨hm, _, hlen⟩ := createN_meta inputs st [] h (by simp)
  have hcomp : ((fun p : Nat × DictRec =>
        Dataset.from_dict p.2 (createN st inputs).2.nextId
          (createN st inputs).2.now) ∘
      (fun d : Dataset => (d.id, d.to_dict))) = id :=
    funext fun d => from_dict_to_dict d _ _
  have hlist : listDatasets (createN st inputs).2 = (createN st inputs).1 := by
    simp only [listDatasets, hm, loadMeta, loadMetadata, jsonLoad,
      List.nil_append]
    rw [List.map_map, hcomp, List.map_id]
  exact ⟨hlist, by rw [hlist]; exact hlen, hlen⟩

/-- A freshly constructed manager (empty index, empty data dir). -/
def emptySt : MgrState :=
  { fs := [], meta := MetaFile.valid [], nextId := 0, now := 0 }

/-- Two uploads used by the C7 witness. -/
def sampleInputs : List (String × Nat × Table) :=
  [("a.csv", 3, sampleTable), ("b.csv", 5, sampleTable)]

theorem listing_completeness_witness :
    listDatasets (createN emptySt sampleInputs).2 =
      (createN emptySt sampleInputs).1 ∧
    (listDatasets (createN emptySt sampleInputs).2).length = 2 ∧
    (createN emptySt sampleInputs).1.length = 2 :=
  listing_completeness emptySt sampleInputs rfl

/- ## String lemmas for rsplit1 -/

theorem dropWhile_dot_decomp (cs : List Char) (h : '.' ∈ cs) :
    ∃ t, cs.dropWhile (fun c => c ≠ '.') = '.' :: t ∧
      cs.takeWhile (fun c => c ≠ '.') ++ '.' :: t = cs ∧
      '.' ∉ cs.takeWhile (fun c => c ≠ '.') := by
  induction cs with
  | nil => cases h
  | cons c rest ih =>
      by_cases hc : c = '.'
      · subst hc
        exact ⟨rest, by simp [List.dropWhile_cons], by simp [List.takeWhile_cons],
          by simp [List.takeWhile_cons]⟩
      · have hrest : '.' ∈ rest := by
          rcases List.mem_cons.mp h with h1 | h1
          · exact absurd h1.symm hc
          · exact h1
        obtain ⟨t, h1, h2, h3⟩ := ih hrest
        refine ⟨t, ?_, ?_, ?_⟩
        · simpa [List.dropWhile_cons, hc] using h1
        · simpa [List.takeWhile_cons, hc] using congrArg (c :: ·) h2
        · simp only [List.takeWhile_cons]
          rw [if_pos (by simp [hc])]
          simp only [List.mem_cons, not_or]
          exact ⟨fun e => hc e.symm, h3⟩

theorem takeWhile_append_stop (l1 l2 : List Char) (h1 : '.' ∉ l1) :
    (l1 ++ '.' :: l2).takeWhile (fun c => c ≠ '.') = l1 := by
  induction l1 with
  | nil => rw [List.nil_append, List.takeWhile_cons, if_neg (by simp)]
  | cons c r ih =>
      have hc : c ≠ '.' := fun e => h1 (e ▸ List.mem_cons_self c r)
      have hr : '.' ∉ r := fun e => h1 (List.mem_cons_of_mem c e)
      rw [List.cons_append, List.takeWhile_cons, if_pos (by simp [hc]), ih hr]

theorem dropWhile_append_stop (l1 l2 : List Char) (h1 : '.' ∉ l1) :
    (l1 ++ '.' :: l2).dropWhile (fun c => c ≠ '.') = '.' :: l2 := by
  induction l1 with
  | nil => rw [List.nil_append, List.dropWhile_cons, if_neg (by simp)]
  | cons c r ih =>
      have hc : c ≠ '.' := fun e => h1 (e ▸ List.mem_cons_self c r)
      have hr : '.' ∉ r := fun e => h1 (List.mem_cons_of_mem c e)
      rw [List.cons_append, List.dropWhile_cons, if_pos (by simp [hc])]
      exact ih hr

/-- When `'.'` occurs, `rsplit1` decomposes the list around its LAST
occurrence: the input is `before ++ '.' :: after` and `after` is
dot-free. -/
theorem rsplit1_decomp (cs : List Char) (h : '.' ∈ cs) :
    cs = (rsplit1 '.' cs).getD 0 [] ++ '.' :: (rsplit1 '.' cs).getD 1 [] ∧
    '.' ∉ (rsplit1 '.' cs).getD 1 [] := by
  have hr : '.' ∈ cs.reverse := List.mem_reverse.mpr h
  obtain ⟨t, hd, ht, hnt⟩ := dropWhile_dot_decomp cs.reverse hr
  have h0 : (rsplit1 '.' cs).getD 0 [] =
      ((cs.reverse.dropWhile (fun c => c ≠ '.')).drop 1).reverse := by
    simp [rsplit1, h]
  have h1 : (rsplit1 '.' cs).getD 1 [] =
      (cs.reverse.takeWhile (fun c => c ≠ '.')).reverse := by
    simp [rsplit1, h]
  constructor
  · rw [h0, h1, hd]
    have := congrArg List.reverse ht
    simp only [List.reverse_append, List.reverse_cons, List.reverse_reverse] at this
    conv_lhs => rw [← this]
    simp [List.append_assoc]
  · rw [h1]
    simpa [List.mem_reverse] using hnt

/-- On an input of the shape `a ++ '.' :: b` with `b` dot-free,
`rsplit1` returns exactly `[a, b]`. -/
theorem rsplit1_pieces (a b : List Char) (hb : '.' ∉ b) :
    rsplit1 '.' (a ++ '.' :: b) = [a, b] := by
  have hm : '.' ∈ a ++ '.' :: b :=
    List.mem_append.mpr (Or.inr (List.mem_cons_self _ _))
  have hbr : '.' ∉ b.reverse := by simpa [List.mem_reverse] using hb
  have hrev : (a ++ '.' :: b).reverse = b.reverse ++ '.' :: a.reverse := by
    simp [List.reverse_append, List.append_assoc]
  simp only [rsplit1, hm, if_pos, hrev,
    dropWhile_append_stop b.reverse a.reverse hbr,
    takeWhile_append_stop b.reverse a.reverse hbr]
  simp

/-- C10: `allowed_file` accepts a filename exactly when it splits as
`a ++ "." ++ b` with `b` dot-free (so `b` is the substring after the
LAST dot) and `b` lowercases to `csv`; the check is case-insensitive
(`DATA.CSV` passes) and a dotless name (`csv`) fails. -/
theorem allowed_file_characterization :
    (∀ f : String, allowed_file f = true ↔
      ∃ a b : List Char, f.data = a ++ '.' :: b ∧ '.' ∉ b ∧
        String.mk (b.map Char.toLower) = "csv") ∧
    allowed_file "DATA.CSV" = true ∧
    allowed_file "csv" = false := by
  refine ⟨fun f => ?_, by decide, by decide⟩
  constructor
  · intro h
    rw [allowed_file, Bool.and_eq_true] at h
    obtain ⟨h1, h2⟩ := h
    have hmem : '.' ∈ f.data := by simpa using h1
    obtain ⟨hdec, hnb⟩ := rsplit1_decomp f.data hmem
    refine ⟨(rsplit1 '.' f.data).getD 0 [], (rsplit1 '.' f.data).getD 1 [],
      hdec, hnb, ?_⟩
    simpa [ALLOWED_EXTENSIONS] using h2
  · rintro ⟨a, b, hab, hb, hlow⟩
    rw [allowed_file, Bool.and_eq_true]
    constructor
    · simp [hab]
    · rw [hab, rsplit1_pieces a b hb]
      simpa [ALLOWED_EXTENSIONS] using hlow

/- ## Excel export filename (spec-side definitions and C8) -/

/-- Modelled from the spec's words: keep letters, digits and
`- _ . space`; replace every other character with `'_'`. -/
def specSanitizeChar (c : Char) : Char :=
  if c.isAlpha || c.isDigit || c = '-' || c = '_' || c = '.' || c = ' '
  then c else '_'

/-- Modelled from the spec's words: "the record's filename with its
extension removed" — delete the last `'.'` and everything after it,
and leave a dotless name unchanged. -/
def dropExtSpec : List Char → List Char
  | [] => []
  | c :: rest =>
      if '.' ∈ rest then c :: dropExtSpec rest
      else if c = '.' then []
      else c :: rest

/-- The attachment filename as the spec describes it. -/
def excelFilenameSpec (filename : String) : String :=
  String.mk ((dropExtSpec filename.data).map specSanitizeChar) ++ ".xlsx"

theorem sanitizeChar_eq_spec (c : Char) : sanitizeChar c = specSanitizeChar c := by
  by_cases h : c = '_'
  · subst h; decide
  · simp [sanitizeChar, specSanitizeChar, pyIsWordChar, h]

theorem dropExtSpec_no_dot (cs : List Char) (h : '.' ∉ cs) :
    dropExtSpec cs = cs := by
  cases cs with
  | nil => rfl
  | cons c rest =>
      have h1 : ¬('.' = c ∨ '.' ∈ rest) := by simpa [List.mem_cons] using h
      push_neg at h1
      have hc : ¬c = '.' := fun e => h1.1 e.symm
      simp [dropExtSpec, h1.2, hc]

theorem dropExtSpec_append (a b : List Char) (hb : '.' ∉ b) :
    dropExtSpec (a ++ '.' :: b) = a := by
  induction a with
  | nil => simp [dropExtSpec, hb]
  | cons c r ih =>
      have hm : '.' ∈ r ++ '.' :: b :=
        List.mem_append.mpr (Or.inr (List.mem_cons_self _ _))
      simp [dropExtSpec, hm, ih]

/-- C8: the Excel export's attachment filename is the record's
filename with its extension removed, every character outside
letters / digits / `- _ . space` replaced by `'_'`, and `.xlsx`
appended — i.e. the code's regex pipeline equals the spec's
description for every filename. -/
theorem excel_filename_matches_spec (f : String) :
    excelFilename f = excelFilenameSpec f := by
  have hsan : sanitizeChar = specSanitizeChar := funext sanitizeChar_eq_spec
  unfold excelFilename excelFilenameSpec
  by_cases h : '.' ∈ f.data
  · obtain ⟨hdec, hnb⟩ := rsplit1_decomp f.data h
    have h2 : dropExtSpec f.data = (rsplit1 '.' f.data).getD 0 [] := by
      conv_lhs => rw [hdec]
      exact dropExtSpec_append _ _ hnb
    rw [h2, hsan]
  · have h0 : (rsplit1 '.' f.data).getD 0 [] = f.data := by
      simp [rsplit1, h]
    rw [h0, dropExtSpec_no_dot f.data h, hsan]

/- ## Route-level claims -/

/-- C1 evidence: the `create_dataset` route wraps its whole body in
`except Exception`, which also catches the `HTTPException(400)`s it
raises itself, so every rejection — wrong extension, empty filename,
unparsable CSV — surfaces as status 500, not 400; only the success
path yields 201. -/
theorem create_route_rejections_return_500 :
    (createRoute emptySt "data.txt" { size := 4, parsed := some sampleTable }).status = 500 ∧
    (createRoute emptySt "" { size := 0, parsed := none }).status = 500 ∧
    (createRoute emptySt "data.csv" { size := 4, parsed := none }).status = 500 ∧
    (createRoute emptySt "data.csv" { size := 3, parsed := some sampleTable }).status = 201 :=
  ⟨rfl, rfl, rfl, rfl⟩

/-- C2 evidence: for an id absent from the index, the GET route raises
`HTTPException(404)` inside its own `except Exception` (which rewrites
it to 500), and the DELETE route crashes on `dataset.to_dict()` before
its `None` check (`AttributeError`, also rewritten to 500) — so both
respond 500, not 404. -/
theorem unknown_id_routes_return_500 (st : MgrState) (dataset_id : Nat)
    (h : List.lookup dataset_id (loadMeta st.meta) = none) :
    (getRoute st dataset_id).status = 500 ∧
    (deleteRoute st dataset_id).status = 500 := by
  have hg : getDataset st dataset_id = none := by simp [getDataset, h]
  constructor
  · unfold getRoute
    rw [hg]
    rfl
  · unfold deleteRoute
    rw [hg]
    rfl

theorem unknown_id_routes_return_500_witness :
    (getRoute emptySt 0).status = 500 ∧ (deleteRoute emptySt 0).status = 500 :=
  unknown_id_routes_return_500 emptySt 0 rfl

/-- A stored table with no numeric column. -/
def noNumTable : Table :=
  { cols := [{ name := "b", dtype := Dtype.object,
               cells := [Val.vStr "x", Val.vStr "y"] }] }

/-- Record and state holding only `noNumTable`. -/
def noNumDs : Dataset :=
  { id := 0, filename := some "b.csv", file_size := some 2,
    upload_date := 0, data_path := some "storage/data/0.pkl" }

def noNumSt : MgrState :=
  { fs := [("storage/data/0.pkl", noNumTable)],
    meta := MetaFile.valid [(0, noNumDs.to_dict)],
    nextId := 1, now := 1 }

/-- C3 evidence: on a dataset with zero numeric columns the plot route
raises `HTTPException(400)` inside its blanket `except Exception` and
therefore answers 500 (a server error, not the client-facing 400);
on a dataset with one numeric column it answers 200 with a PDF whose
grid has one rendered panel. -/
theorem plot_route_zero_numeric_500 :
    (plotRoute noNumSt 0).status = 500 ∧
    (plotRoute sampleSt 0).status = 200 ∧
    (plotRoute sampleSt 0).body = some { cells := [true] } :=
  ⟨rfl, rfl, rfl⟩

/-- C9: for `k ≥ 1` numeric columns the figure grid has `min 3 k`
columns and `⌈k / min 3 k⌉` rows, which is enough cells for all `k`
histogram panels; cell `i` is visible exactly when `i < k`, so every
cell with index `≥ k` is hidden. -/
theorem plot_grid_layout (k : Nat) (hk : 1 ≤ k) :
    plotNCols k = min 3 k ∧
    plotNRows k = k ⌈/⌉ min 3 k ∧
    k ≤ plotNRows k * plotNCols k ∧
    (plotGrid k).length = plotNRows k * plotNCols k ∧
    ∀ i, i < (plotGrid k).length →
      (plotGrid k).get? i = some (decide (i < k)) := by
  have hn : 0 < plotNCols k := by
    have h3 : 0 < min 3 k := Nat.lt_min.mpr ⟨by norm_num, hk⟩
    simpa [plotNCols] using h3
  refine ⟨rfl, ?_, ?_, ?_, ?_⟩
  · rw [Nat.ceilDiv_eq_add_pred_div]; rfl
  · have h1 : k + plotNCols k - 1 <
        (k + plotNCols k - 1) / plotNCols k * plotNCols k + plotNCols k :=
      Nat.lt_div_mul_add hn
    have h2 : plotNRows k * plotNCols k =
        (k + plotNCols k - 1) / plotNCols k * plotNCols k := rfl
    rw [h2]
    generalize (k + plotNCols k - 1) / plotNCols k * plotNCols k = X at h1 ⊢
    omega
  · simp [plotGrid]
  · intro i hi
    simp only [plotGrid] at hi ⊢
    have hrep : i < (List.replicate (plotNRows k * plotNCols k) true).length := by
      simpa using hi
    rw [List.get?_eq_get hi]
    rw [List.get_mapIdx (List.replicate (plotNRows k * plotNCols k) true)
      (fun j v => if k ≤ j then false else v) i hrep]
    simp only [List.get_eq_getElem, List.getElem_replicate]
    by_cases hik : k ≤ i
    · have : ¬ i < k := Nat.not_lt.mpr hik
      simp [hik, this]
    · have : i < k := Nat.lt_of_not_le hik
      simp [hik, this]

theorem plot_grid_layout_witness :
    1 ≤ 4 ∧ plotNCols 4 = min 3 4 ∧ plotNRows 4 = 4 ⌈/⌉ min 3 4 ∧
    4 ≤ plotNRows 4 * plotNCols 4 ∧
    (plotGrid 4).length = plotNRows 4 * plotNCols 4 ∧
    (plotGrid 4).get? 5 = some (decide (5 < 4)) :=
  ⟨by decide, (plot_grid_layout 4 (by decide)).1,
   (plot_grid_layout 4 (by decide)).2.1,
   (plot_grid_layout 4 (by decide)).2.2.1,
   (plot_grid_layout 4 (by decide)).2.2.2.1,
   (plot_grid_layout 4 (by decide)).2.2.2.2 5 (by decide)⟩
